import Mathlib

/-!
Verification development for the bridge document-store library.

The definitions below are shallow embeddings of the C++ sources:
  * include/schema/options.hpp        (text indexing options, text/numeric field options)
  * src/bridge/src/bridge/schema/document.cpp and the document header
  * src/bridge/src/bridge/schema/schema.cpp   (SchemaBuilder, Schema, JSON codec)
  * include/schema/named_field_document.hpp
  * include/bridge/directory/read_only_source.hpp and devices.hpp (RAMDirectory)
  * src/bridge/src/bridge/store/writer.cpp and reader.cpp (byte-level store format)
  * the archives.hpp (bridge::archive::BinaryOutput/BinaryInput cereal binary
    archive) and global.hpp (doc_id_t = uint32_t) sections staged inside
    include/bridge/analyzer/regex_analyzer.hpp, and the field header with
    field_v = variant of text_field and uint32_field, field::serialize and
    id_t = unsigned char (the byte widths of the store encoding)

Machine integers are modelled as Nat; byte streams as List Nat with every
byte in [0, 256) by construction of the encoders.  Fallible operations
(C++ throw) return Option, with none standing for the thrown error.
-/

set_option autoImplicit false

/-- Embeds enum text_indexing_option::Value from include/schema/options.hpp
(five variants in the declared order, Unindexed = 0). -/
inductive text_indexing_option
  | Unindexed
  | Untokenized
  | TokenizedNoFreq
  | TokenizedWithFreq
  | TokenizedWithFreqAndPosition
deriving DecidableEq, Repr, Fintype

/-- Embeds text_indexing_option::operator| (options.hpp lines 100-111).
The C++ throws bridge_error on incompatible options; the throw is none here. -/
def text_indexing_option.combine (a b : text_indexing_option) : Option text_indexing_option :=
  if a = text_indexing_option.Unindexed then some b
  else if b = text_indexing_option.Unindexed then some a
  else if a = b then some a
  else none

/-- Embeds text_indexing_option::get_str (options.hpp). -/
def text_indexing_option.get_str : text_indexing_option → String
  | .Unindexed => "unindexed"
  | .Untokenized => "untokenized"
  | .TokenizedNoFreq => "tokenized_no_freq"
  | .TokenizedWithFreq => "tokenized_with_freq"
  | .TokenizedWithFreqAndPosition => "tokenized_with_freq_and_position"

/-- Embeds text_indexing_option::from_str (options.hpp); unknown label throws,
modelled as none. -/
def text_indexing_option.from_str (s : String) : Option text_indexing_option :=
  if s = "unindexed" then some .Unindexed
  else if s = "untokenized" then some .Untokenized
  else if s = "tokenized_no_freq" then some .TokenizedNoFreq
  else if s = "tokenized_with_freq" then some .TokenizedWithFreq
  else if s = "tokenized_with_freq_and_position" then some .TokenizedWithFreqAndPosition
  else none

/-- Embeds struct text_field (a.k.a. text_field_option) from options.hpp:
an indexing mode plus a stored flag. -/
structure text_field_option where
  indexing : text_indexing_option
  stored : Bool
deriving DecidableEq, Repr, Fintype

/-- Embeds text_field::operator| (options.hpp lines 236-238): indexing modes
combine with operator| of text_indexing_option, stored flags with logical OR;
a throw from the indexing combine propagates (none). -/
def text_field_option.combine (a b : text_field_option) : Option text_field_option :=
  match a.indexing.combine b.indexing with
  | some i => some { indexing := i, stored := a.stored || b.stored }
  | none => none

/-- Embeds struct numeric_field (a.k.a. numeric_field_option) from options.hpp. -/
structure numeric_field_option where
  indexed : Bool
  fast : Bool
  stored : Bool
deriving DecidableEq, Repr, Fintype

/-- JSON values as produced by nlohmann ordered_json: object keys keep
insertion order, hence a list of pairs. Numbers are restricted to the
unsigned integers the repository actually stores. -/
inductive json
  | null
  | bool (b : Bool)
  | num (n : Nat)
  | str (s : String)
  | arr (xs : List json)
  | obj (kvs : List (String × json))

/-- Key lookup in a JSON object (json.at / json.operator[] on a present key);
none models both a missing key and indexing a non-object. -/
def json.get : json → String → Option json
  | .obj kvs, k => kvs.lookup k
  | _, _ => none

/-- Embeds text_field::to_json (options.hpp). -/
def text_field_option.to_json (o : text_field_option) : json :=
  .obj [("indexing", .str o.indexing.get_str), ("stored", .bool o.stored)]

/-- Embeds text_field::from_json (options.hpp): requires the keys
"indexing" (a string label) and "stored" (a boolean); any missing key,
wrong kind or unknown label throws, modelled as none. -/
def text_field_option.from_json (j : json) : Option text_field_option :=
  match j.get "indexing", j.get "stored" with
  | some (.str s), some (.bool b) =>
    match text_indexing_option.from_str s with
    | some i => some { indexing := i, stored := b }
    | none => none
  | _, _ => none

/-- Embeds numeric_field::to_json (options.hpp). -/
def numeric_field_option.to_json (o : numeric_field_option) : json :=
  .obj [("indexed", .bool o.indexed), ("fast", .bool o.fast), ("stored", .bool o.stored)]

/-- Embeds numeric_field::from_json (options.hpp): three mandatory boolean keys. -/
def numeric_field_option.from_json (j : json) : Option numeric_field_option :=
  match j.get "indexed", j.get "fast", j.get "stored" with
  | some (.bool i), some (.bool f), some (.bool s) =>
    some { indexed := i, fast := f, stored := s }
  | _, _, _ => none

/-- Embeds field_value_v = variant of string_value and uint32_value
(include/schema/field_value.hpp). -/
inductive field_value_v
  | text (s : String)
  | u32 (v : Nat)
deriving DecidableEq, Repr

/-- Embeds the field template of include/schema/field.hpp: an id
(id_t = unsigned short) together with a value; the value's variant
alternative plays the role of the field_v variant index. -/
structure field where
  id : Nat
  val : field_value_v
deriving DecidableEq, Repr

/-- The std::variant index of a field_v (text_field = field of string is
alternative 0, uint32_field alternative 1). -/
def field_v_index (f : field) : Nat :=
  match f.val with
  | .text _ => 0
  | .u32 _ => 1

/-- Embeds class document (document.cpp / document header): the field vector
plus the private is_sorted_ hint (false on construction). -/
structure document where
  fields : List field
  is_sorted : Bool
deriving DecidableEq, Repr

/-- Embeds document::add_text (document.cpp line 93): emplace_back only;
note that the is_sorted_ hint is left untouched by the C++ code. -/
def document.add_text (d : document) (i : Nat) (s : String) : document :=
  { d with fields := d.fields ++ [{ id := i, val := .text s }] }

/-- Embeds document::add_u32 (document.cpp line 101): emplace_back only. -/
def document.add_u32 (d : document) (i : Nat) (v : Nat) : document :=
  { d with fields := d.fields ++ [{ id := i, val := .u32 v }] }

/-- Embeds the generic document::add template (document header):
emplace_back only. -/
def document.add (d : document) (f : field) : document :=
  { d with fields := d.fields ++ [f] }

/-- Insertion step for the model of std::sort with the comparator
comparing unwrap_field_id. std::sort is unstable, so the order of
equal-id fields is unspecified; this model fixes one admissible order. -/
def insert_by_id (f : field) : List field → List field
  | [] => [f]
  | g :: gs => if f.id < g.id then f :: g :: gs else g :: insert_by_id f gs

/-- Sorting the field vector by ascending field id (document::sort_by_id body). -/
def sort_fields : List field → List field
  | [] => []
  | f :: fs => insert_by_id f (sort_fields fs)

/-- Embeds document::sort_by_id (document.cpp lines 157-163): memoized via
the is_sorted_ hint; does nothing when the hint is set. -/
def document.sort_by_id (d : document) : document :=
  if d.is_sorted then d else { fields := sort_fields d.fields, is_sorted := true }

/-- The lambda inside document::operator== (document.cpp lines 54-69):
variant indexes equal and, by std::visit, get_id() equal — the values are
deliberately ignored ("shallow comparison" in the source). -/
def field_shallow_eq (a b : field) : Bool :=
  field_v_index a == field_v_index b && a.id == b.id

/-- std::equal over the two field vectors with the shallow comparator:
positional comparison requiring equal lengths. -/
def doc_fields_eq : List field → List field → Bool
  | [], [] => true
  | x :: xs, y :: ys => field_shallow_eq x y && doc_fields_eq xs ys
  | _, _ => false

/-- Embeds document::operator== (document.cpp lines 54-69). -/
def document.beq (a b : document) : Bool :=
  doc_fields_eq a.fields b.fields

/-- Insertion into the ordered std::map of document::get_sorted_fields,
grouping a field under its id; new keys keep the map key-sorted, an
existing key appends the field to its group. -/
def group_insert (k : Nat) (f : field) : List (Nat × List field) → List (Nat × List field)
  | [] => [(k, [f])]
  | (k2, vs) :: rest =>
    if k < k2 then (k, [f]) :: (k2, vs) :: rest
    else if k = k2 then (k2, vs ++ [f]) :: rest
    else (k2, vs) :: group_insert k f rest

/-- The grouping loop of document::get_sorted_fields: fold the field vector
into the ordered map. -/
def group_by_id (fs : List field) : List (Nat × List field) :=
  fs.foldl (fun acc f => group_insert f.id f acc) []

/-- Embeds document::get_sorted_fields (document.cpp): sort_by_id, then group
the fields through a std::map keyed by id and return its entries in key order.
The state change of the sort is document.sort_by_id. -/
def document.get_sorted_fields (d : document) : List (Nat × List field) :=
  group_by_id d.sort_by_id.fields

/-- Embeds field_entry_v = variant over field_entry of text options and
field_entry of numeric options (include/schema/field_entry.hpp). -/
inductive field_entry_v
  | text (name : String) (opts : text_field_option)
  | numeric (name : String) (opts : numeric_field_option)
deriving DecidableEq, Repr

/-- field_entry::name() for either variant alternative (the std::visit in
schema.cpp). -/
def field_entry_v.name : field_entry_v → String
  | .text n _ => n
  | .numeric n _ => n

/-- Embeds field_entry::to_json composed with field_type::to_json
(field_entry implementation file): name plus a type object holding the
field kind label and the options object. -/
def field_entry_v.to_json : field_entry_v → json
  | .text n o =>
    .obj [("name", .str n),
          ("type", .obj [("field", .str "text"), ("options", o.to_json)])]
  | .numeric n o =>
    .obj [("name", .str n),
          ("type", .obj [("field", .str "numeric"), ("options", o.to_json)])]

/-- Embeds the get_entry lambda of Schema::from_json (schema.cpp lines
206-237) combined with field_entry::from_json: dispatch on
json at "type" at "field", then read the name and the options; any
missing key, kind mismatch or unknown label throws, modelled as none. -/
def field_entry_v.from_json (fj : json) : Option field_entry_v :=
  match (fj.get "type").bind (fun t => t.get "field") with
  | some (.str ft) =>
    if ft = "text" then
      match fj.get "name", (fj.get "type").bind (fun t => t.get "options") with
      | some (.str n), some oj =>
        match text_field_option.from_json oj with
        | some o => some (.text n o)
        | none => none
      | _, _ => none
    else if ft = "numeric" then
      match fj.get "name", (fj.get "type").bind (fun t => t.get "options") with
      | some (.str n), some oj =>
        match numeric_field_option.from_json oj with
        | some o => some (.numeric n o)
        | none => none
      | _, _ => none
    else none
  | _ => none

/-- Insertion into the std::map of field names (schema.cpp
SchemaBuilder::add_field uses std::map::insert): the map stays sorted by
key and an insert under an existing key is a no-op, keeping the first id. -/
def map_insert_keep (kvs : List (String × Nat)) (k : String) (v : Nat) : List (String × Nat) :=
  match kvs with
  | [] => [(k, v)]
  | (k2, v2) :: rest =>
    if k < k2 then (k, v) :: (k2, v2) :: rest
    else if k = k2 then (k2, v2) :: rest
    else (k2, v2) :: map_insert_keep rest k v

/-- Embeds class SchemaBuilder state (schema.cpp): the entry vector and the
name-to-id std::map. -/
structure SchemaBuilder where
  field_entries : List field_entry_v
  field_names : List (String × Nat)
deriving DecidableEq, Repr

/-- The default-constructed SchemaBuilder. -/
def SchemaBuilder.empty : SchemaBuilder := { field_entries := [], field_names := [] }

/-- Embeds SchemaBuilder::add_field (schema.cpp lines 75-81): the new field id
is the current entry count, the entry is appended unconditionally, and the
name map insert keeps an already present name. Returns the new builder and
the id handed back to the caller. -/
def SchemaBuilder.add_field (b : SchemaBuilder) (name : String) (e : field_entry_v) :
    SchemaBuilder × Nat :=
  let fid := b.field_entries.length
  ({ field_entries := b.field_entries ++ [e],
     field_names := map_insert_keep b.field_names name fid }, fid)

/-- Embeds class Schema (schema.cpp): the immutable entry vector and name map. -/
structure Schema where
  field_entries : List field_entry_v
  field_names : List (String × Nat)
deriving DecidableEq, Repr

/-- Embeds SchemaBuilder::build (schema.cpp); it never fails. -/
def SchemaBuilder.build (b : SchemaBuilder) : Schema :=
  { field_entries := b.field_entries, field_names := b.field_names }

/-- Embeds Schema::get_field_id (schema.cpp): map lookup, throwing
(none) when the name is absent. -/
def Schema.get_field_id (s : Schema) (name : String) : Option Nat :=
  s.field_names.lookup name

/-- Embeds Schema::to_json (schema.cpp lines 183-199): an object with the
single key "fields" holding the entries in declaration order. -/
def Schema.to_json (s : Schema) : json :=
  .obj [("fields", .arr (s.field_entries.map field_entry_v.to_json))]

/-- The loop of Schema::from_json: parse each entry and add it to the builder
under the parsed entry's own name; the first parse failure aborts. -/
def schema_from_json_loop (b : SchemaBuilder) : List json → Option SchemaBuilder
  | [] => some b
  | fj :: rest =>
    match field_entry_v.from_json fj with
    | some e => schema_from_json_loop (b.add_field e.name e).1 rest
    | none => none

/-- Embeds Schema::from_json (schema.cpp lines 206-237): read the "fields"
array (anything else throws, modelled as none), rebuild through a fresh
SchemaBuilder, and build. -/
def Schema.from_json (j : json) : Option Schema :=
  match j.get "fields" with
  | some (.arr fjs) =>
    match schema_from_json_loop SchemaBuilder.empty fjs with
    | some b => some b.build
    | none => none
  | _ => none

/-- A schema built by registering every entry under its own name, the way
add_text_field, add_numeric_field and Schema::from_json do. -/
def build_consistent (l : List field_entry_v) : SchemaBuilder :=
  l.foldl (fun b e => (b.add_field e.name e).1) SchemaBuilder.empty

/-- nlohmann iteration over a json value (the inner for loop of
named_field_document::from_json): arrays iterate their elements, objects
their mapped values, null is an empty range, and a primitive is a
one-element range. -/
def json.elems : json → List json
  | .arr xs => xs
  | .obj kvs => kvs.map Prod.snd
  | .null => []
  | v => [v]

/-- The value loop of named_field_document::from_json
(include/schema/named_field_document.hpp lines 93-113): a JSON string or a
JSON number is converted and kept; any other value kind matches neither
branch of the if/else-if and is silently dropped. -/
def parse_nfd_values : List json → List field_value_v
  | [] => []
  | .str s :: rest => .text s :: parse_nfd_values rest
  | .num n :: rest => .u32 n :: parse_nfd_values rest
  | _ :: rest => parse_nfd_values rest

/-- The scalar conversion the ingest accepts: strings and numbers; every
other kind yields none. -/
def json_scalar_value : json → Option field_value_v
  | .str s => some (.text s)
  | .num n => some (.u32 n)
  | _ => none

/-- Assignment into the ordered map of a named_field_document
(fmap of key = values): replace under an existing key, sorted insert
under a fresh one. -/
def map_assign (kvs : List (String × List field_value_v)) (k : String)
    (v : List field_value_v) : List (String × List field_value_v) :=
  match kvs with
  | [] => [(k, v)]
  | (k2, v2) :: rest =>
    if k < k2 then (k, v) :: (k2, v2) :: rest
    else if k = k2 then (k2, v) :: rest
    else (k2, v2) :: map_assign rest k v

/-- Embeds struct named_field_document: the name-to-values ordered map. -/
structure named_field_document where
  fields_by_name : List (String × List field_value_v)
deriving DecidableEq, Repr

/-- Embeds named_field_document::from_json: read the inner object under
"named_field_document" and fill the map key by key with the parsed values. -/
def named_field_document.from_json (j : json) : Option named_field_document :=
  match j.get "named_field_document" with
  | some (.obj kvs) =>
    some { fields_by_name :=
      kvs.foldl (fun m kv => map_assign m kv.1 (parse_nfd_values kv.2.elems)) [] }
  | _ => none

/-- The per-entry body of Schema::from_named_doc (schema.cpp lines 158-177):
resolve the name (an unknown name throws, modelled as none) and append one
field per value. Both field_value_v alternatives are supported, so the
final "Unsupported field type" throw of the C++ loop is unreachable. -/
def from_named_doc_loop (s : Schema) (d : document) :
    List (String × List field_value_v) → Option document
  | [] => some d
  | (name, values) :: rest =>
    match s.get_field_id name with
    | some fid =>
      from_named_doc_loop s
        { d with fields := d.fields ++ values.map (fun v => { id := fid, val := v }) } rest
    | none => none

/-- Embeds Schema::from_named_doc (schema.cpp lines 158-177): build the
document from the named map, then sort_by_id. -/
def Schema.from_named_doc (s : Schema) (nfd : named_field_document) : Option document :=
  match from_named_doc_loop s { fields := [], is_sorted := false } nfd.fields_by_name with
  | some d => some d.sort_by_id
  | none => none

/-- Embeds Schema::doc_from_json (schema.cpp): from_named_doc after
named_field_document::from_json. -/
def Schema.doc_from_json (s : Schema) (j : json) : Option document :=
  match named_field_document.from_json j with
  | some nfd => s.from_named_doc nfd
  | none => none

/-- Embeds in_memory_source::slice (read_only_source.hpp lines 187-191): the
constructed vector copies the range from data begin plus from_offset up to
data begin plus from_offset plus to_offset, i.e. to_offset bytes starting
at from_offset. -/
def in_memory_source_slice (data : List Nat) (from_offset to_offset : Nat) : List Nat :=
  (data.drop from_offset).take to_offset

/-- Embeds mmap_source::slice (read_only_source.hpp lines 133-135): it maps
the region of the backing file at offset from_offset with size to_offset,
which is the same byte range as the in-memory slice. -/
def mmap_source_slice (data : List Nat) (from_offset to_offset : Nat) : List Nat :=
  (data.drop from_offset).take to_offset

/-- Embeds the ram_cache_t state of RAMDirectory (devices.hpp): the
name-to-byte-vector map. -/
structure RAMDirectory where
  ram_cache : List (String × List Nat)
deriving DecidableEq, Repr

/-- Embeds RAMDirectory::open_read (devices.hpp lines 134-145): find the
blob (a missing name throws io_error, modelled as none) and hand out an
in_memory_source constructed from a copy of the blob's bytes — the
returned source owns its data independently of the directory. -/
def RAMDirectory.open_read (d : RAMDirectory) (p : String) : Option (List Nat) :=
  d.ram_cache.lookup p

/-- Erasing the map entry found by std::map::find (first occurrence). -/
def erase_key (kvs : List (String × List Nat)) (p : String) : List (String × List Nat) :=
  match kvs with
  | [] => []
  | (k, v) :: rest => if k = p then rest else (k, v) :: erase_key rest p

/-- Embeds RAMDirectory::remove (devices.hpp lines 151-162): a missing name
throws file_error (none); otherwise only the map entry is erased. -/
def RAMDirectory.remove (d : RAMDirectory) (p : String) : Option RAMDirectory :=
  match d.ram_cache.lookup p with
  | some _ => some { ram_cache := erase_key d.ram_cache p }
  | none => none

/-- The single byte written for a one-byte POD through
bridge::archive::BinaryOutput::saveBinary (the archives.hpp section staged
inside analyzer/regex_analyzer.hpp): the field id type of the field header,
using id_t = unsigned char, occupies sizeof(id_t) = 1 byte. -/
def u8LE (n : Nat) : List Nat :=
  [n % 256]

/-- The bytes of a 4-byte arithmetic POD (uint32_t: doc_id_t per global.hpp,
staged inside analyzer/regex_analyzer.hpp, and the uint32 field value)
through BinaryOutput::saveBinary: sizeof(t) = 4 raw memory bytes, which on
the project's little-endian target are the low 32 bits, least significant
first. -/
def u32LE (n : Nat) : List Nat :=
  [n % 256, n / 256 % 256, n / 65536 % 256, n / 16777216 % 256]

/-- The bytes of an 8-byte arithmetic POD (size_t lengths and offsets, and
cereal::size_type size tags, both uint64_t) through
BinaryOutput::saveBinary: sizeof(t) = 8 raw memory bytes, little-endian on
the project's target. -/
def u64LE (n : Nat) : List Nat :=
  u32LE (n % 4294967296) ++ u32LE (n / 4294967296 % 4294967296)

/-- Value of a little-endian byte list. -/
def le_val : List Nat → Nat
  | [] => 0
  | b :: bs => b + 256 * le_val bs

/-- Read a fixed-width little-endian integer at a stream position; a short
read makes the codec throw (none), per the unmarshall wrapper in
bridge/common/serialization.hpp. -/
def read_le (bs : List Nat) (pos len : Nat) : Option Nat :=
  if pos + len ≤ bs.length then some (le_val ((bs.drop pos).take len)) else none

/-- A stored field as the store writer sees it: the field_v variant with the
C++ std::string carried as its raw bytes. -/
inductive sfield
  | text (id : Nat) (bytes : List Nat)
  | u32 (id : Nat) (v : Nat)
deriving DecidableEq, Repr

/-- Modelled from the spec: the leading variant tag only — the marshall_v
helper named at the writer's call site has no definition in the sources;
per spec section 6 it is a u32 tag, 0 = text, 1 = u32, matching the
field_v alternative order (text_field, uint32_field).  The payload after
the tag embeds field::serialize from the field header (ar then id, ar then
value, with id_t = unsigned char, so one byte of id) followed by
field_value::serialize (ar then _value): a std::string under the cereal
binary archive is its u64 size tag then the raw bytes, a uint32_t its four
bytes. -/
def enc_sfield : sfield → List Nat
  | .text i s => u32LE 0 ++ u8LE i ++ u64LE s.length ++ s
  | .u32 i v => u32LE 1 ++ u8LE i ++ u32LE v

/-- Serialization of a byte vector (cereal std::vector: u64 size tag then
the raw bytes), as used by marshall of the intermediary buffer. -/
def enc_vec (v : List Nat) : List Nat :=
  u64LE v.length ++ v

/-- Embeds store_writer::write_on_intermediary_buffer (writer.cpp lines
101-113): the field count (a size_t) followed by the tagged fields. -/
def write_on_intermediary_buffer (fields : List sfield) : List Nat :=
  u64LE fields.length ++ (fields.map enc_sfield).flatten

/-- Embeds the store_writer state (the writer header): assigned doc id,
offset records, bytes written to the device, the current block, and the
device output so far. The intermediary buffer is transient and carried by
the function bodies. -/
structure store_writer_state where
  doc_id : Nat
  offsets : List (Nat × Nat)
  written : Nat
  current_block : List Nat
  out : List Nat
deriving DecidableEq, Repr

/-- The freshly constructed store_writer. -/
def store_writer_init : store_writer_state :=
  { doc_id := 0, offsets := [], written := 0, current_block := [], out := [] }

/-- Embeds store_writer::write (writer.cpp lines 55-79) with the
compress = false branch (identity strategy: the current block is moved into
the intermediary buffer unchanged): the device receives marshall of
final_size (u64) followed by marshall of the buffer (u64 size then bytes);
written grows by both marshall results; the offset record
(doc_id, written) is appended; the current block is cleared.  Note: no
per-document offsets map and no prefix length are appended to the block. -/
def store_writer_write (w : store_writer_state) : store_writer_state :=
  let interm := w.current_block
  let final_size := interm.length
  { doc_id := w.doc_id,
    offsets := w.offsets ++ [(w.doc_id, w.written + 8 + (8 + final_size))],
    written := w.written + 8 + (8 + final_size),
    current_block := [],
    out := w.out ++ u64LE final_size ++ enc_vec interm }

/-- Embeds store_writer::store (writer.cpp lines 32-49): serialize the
fields into the intermediary buffer, append its length (u64) and its
vector serialization to the current block (write_on_current_block,
writer.cpp lines 115-125), bump doc_id, and flush via write() when the
block exceeds BLOCK_SIZE = 16384. -/
def store_writer_store (w : store_writer_state) (fields : List sfield) : store_writer_state :=
  let interm := write_on_intermediary_buffer fields
  let cb := w.current_block ++ u64LE interm.length ++ enc_vec interm
  let w2 := { w with current_block := cb, doc_id := w.doc_id + 1 }
  if 16384 < cb.length then store_writer_write w2 else w2

/-- Serialization of the offset vector (cereal std::vector of offset_index;
offset_index::serialize writes doc_id then offset, store.hpp). -/
def enc_offsets (os : List (Nat × Nat)) : List Nat :=
  u64LE os.length ++ (os.map (fun e => u32LE e.1 ++ u64LE e.2)).flatten

/-- Embeds store_writer::close (writer.cpp lines 84-98): flush a pending
block, marshall the offsets, then marshall header_offset = written (which
the offsets marshall did not change). Returns the final device bytes. -/
def store_writer_close (w : store_writer_state) : List Nat :=
  let w2 := if 0 < w.current_block.length then store_writer_write w else w
  w2.out ++ enc_offsets w2.offsets ++ u64LE w2.written

/-- Parsing a serialized byte vector at a position (cereal std::vector of
bytes: u64 size then that many bytes; a short read throws, none). -/
def parse_vec (bs : List Nat) (pos : Nat) : Option (List Nat) :=
  match read_le bs pos 8 with
  | some len =>
    if pos + 8 + len ≤ bs.length then some ((bs.drop (pos + 8)).take len) else none
  | none => none

/-- Parsing the entries of a serialized vector of offset_index
(u32 doc_id then u64 offset each). -/
def parse_offset_entries (bs : List Nat) : Nat → Nat → Option (List (Nat × Nat))
  | _, 0 => some []
  | pos, Nat.succ c =>
    match read_le bs pos 4, read_le bs (pos + 4) 8 with
    | some d, some o =>
      match parse_offset_entries bs (pos + 12) c with
      | some rest => some ((d, o) :: rest)
      | none => none
    | _, _ => none

/-- The offset shift normalization of store_reader::read_header
(reader.cpp): each entry keeps its doc id but takes the previous entry's
cumulative offset, the first entry taking 0. -/
def shift_normalize : Nat → List (Nat × Nat) → List (Nat × Nat)
  | _, [] => []
  | shifted, (d, o) :: rest => (d, shifted) :: shift_normalize o rest

/-- Embeds store_reader::read_header (reader.cpp lines 31-66): seek to the
last u64 of the source (a too-short source fails the seek, io_error),
read header_offset, seek there, unmarshall the offset vector, and shift
normalize. -/
def store_read_header (src : List Nat) : Option (List (Nat × Nat)) :=
  if src.length < 8 then none
  else
    match read_le src (src.length - 8) 8 with
    | some written =>
      match read_le src written 8 with
      | some cnt =>
        match parse_offset_entries src (written + 8) cnt with
        | some entries => some (shift_normalize 0 entries)
        | none => none
      | none => none
    | none => none

/-- Embeds store_reader::block_offset (reader.cpp lines 68-87): lower_bound
over the normalized offsets (ascending doc ids) for the first entry whose
doc id is at least the requested id; past-the-end throws (none). -/
def store_block_offset (offsets : List (Nat × Nat)) (id : Nat) : Option (Nat × Nat) :=
  match offsets with
  | [] => none
  | (d, o) :: rest => if id ≤ d then some (d, o) else store_block_offset rest id

/-- Embeds store_reader::read_block (reader.cpp lines 88-107): seek to the
block offset and unmarshall a byte vector; no decompression is applied
(the line reading a separate block length is commented out in the source). -/
def store_read_block (src : List Nat) (off : Nat) : Option (List Nat) :=
  parse_vec src off

/-- Parsing the entries of a serialized std::map of doc_id_t to size_t
(u64 count already consumed; u32 key then u64 value each). -/
def parse_map_entries (bs : List Nat) : Nat → Nat → Option (List (Nat × Nat))
  | _, 0 => some []
  | pos, Nat.succ c =>
    match read_le bs pos 4, read_le bs (pos + 4) 8 with
    | some k, some v =>
      match parse_map_entries bs (pos + 12) c with
      | some rest => some ((k, v) :: rest)
      | none => none
    | _, _ => none

/-- Embeds store_reader::read_block_offsets (reader.cpp lines 109-151): read
the last u64 of the decompressed block (a too-short block fails the seek),
treat it as the position of the per-document offsets map, seek there and
unmarshall the map. -/
def store_read_block_offsets (block : List Nat) : Option (List (Nat × Nat)) :=
  if block.length < 8 then none
  else
    match read_le block (block.length - 8) 8 with
    | some w =>
      match read_le block w 8 with
      | some cnt => parse_map_entries block (w + 8) cnt
      | none => none
    | none => none

/-- Parsing cnt tagged field values (unmarshall of std::vector of field_v):
u32 tag then the payload of the tagged alternative; an unknown tag or a
short read throws (none). -/
def parse_sfields (bs : List Nat) : Nat → Nat → Option (List sfield)
  | _, 0 => some []
  | pos, Nat.succ c =>
    match read_le bs pos 4 with
    | some 0 =>
      match read_le bs (pos + 4) 1, read_le bs (pos + 5) 8 with
      | some i, some len =>
        if pos + 13 + len ≤ bs.length then
          match parse_sfields bs (pos + 13 + len) c with
          | some rest => some (sfield.text i ((bs.drop (pos + 13)).take len) :: rest)
          | none => none
        else none
      | _, _ => none
    | some 1 =>
      match read_le bs (pos + 4) 1, read_le bs (pos + 5) 4 with
      | some i, some v =>
        match parse_sfields bs (pos + 9) c with
        | some rest => some (sfield.u32 i v :: rest)
        | none => none
      | _, _ => none
    | _ => none

/-- Embeds store_reader::get (reader.cpp lines 153-192) for a freshly
constructed reader (empty block cache, so the block is read and its
offsets parsed): locate the block, load it, parse the trailer map, look
the doc id up in the map (map::at throws on a missing key), then read the
field count, the field vector, and check the two counts agree. Every
thrown error surfaces as none. -/
def store_reader_get (src : List Nat) (doc_id : Nat) : Option (List sfield) :=
  match store_read_header src with
  | some offsets =>
    match store_block_offset offsets doc_id with
    | some (_, boff) =>
      match store_read_block src boff with
      | some block =>
        match store_read_block_offsets block with
        | some bofs =>
          match bofs.lookup doc_id with
          | some shift =>
            match read_le block shift 8, read_le block (shift + 8) 8 with
            | some nf, some cnt =>
              match parse_sfields block (shift + 16) cnt with
              | some fields => if nf = fields.length then some fields else none
              | none => none
            | _, _ => none
          | none => none
        | none => none
      | none => none
    | none => none
  | none => none

/-- The single-document store used as the concrete failing input for the
round-trip claims: one document holding one u32 field (id 0, value 7),
written with the identity (no-compression) strategy. -/
def c1_doc : List sfield := [sfield.u32 0 7]

/-- The device bytes after store(c1_doc) and close(). -/
def c1_store_bytes : List Nat :=
  store_writer_close (store_writer_store store_writer_init c1_doc)

/-- The uncompressed block contents that close() flushes for c1_doc
(the current block right before the flush). -/
def c2_block_bytes : List Nat :=
  (store_writer_store store_writer_init c1_doc).current_block

theorem doc_fields_eq_iff_forall2 (xs ys : List field) :
    doc_fields_eq xs ys = true ↔
      List.Forall₂ (fun f g => field_v_index f = field_v_index g ∧ f.id = g.id) xs ys := by
  induction xs generalizing ys with
  | nil => cases ys <;> simp [doc_fields_eq]
  | cons x xs ih =>
    cases ys with
    | nil => simp [doc_fields_eq]
    | cons y ys =>
      simp [doc_fields_eq, field_shallow_eq, Bool.and_eq_true, beq_iff_eq, ih,
        List.forall₂_cons, and_assoc]

/-- Claim C4 (amended): document operator== is a positional comparison: two
documents compare equal iff their field vectors have the same length and,
position by position, the same variant alternative and the same field id;
the field values are ignored, and no sorting happens. -/
theorem document_beq_iff_pointwise_shallow (a b : document) :
    document.beq a b = true ↔
      List.Forall₂ (fun f g => field_v_index f = field_v_index g ∧ f.id = g.id)
        a.fields b.fields :=
  doc_fields_eq_iff_forall2 a.fields b.fields

/-- Witness for C4: the amended equality holds at a concrete pair that
differs only in the stored values. -/
theorem document_beq_iff_pointwise_shallow_witness :
    document.beq { fields := [{ id := 3, val := .u32 1 }], is_sorted := false }
      { fields := [{ id := 3, val := .u32 2 }], is_sorted := false } = true :=
  (document_beq_iff_pointwise_shallow
    { fields := [{ id := 3, val := .u32 1 }], is_sorted := false }
    { fields := [{ id := 3, val := .u32 2 }], is_sorted := false }).mpr
    (List.Forall₂.cons ⟨rfl, rfl⟩ List.Forall₂.nil)

/-- Counterexample to C4 as stated: two documents with the same field id but
different values are equal under operator==, while their multisets of
(field id, value) pairs differ. -/
theorem document_beq_ignores_values_cx :
    document.beq { fields := [{ id := 0, val := .text "x" }], is_sorted := false }
      { fields := [{ id := 0, val := .text "y" }], is_sorted := false } = true ∧
    (Multiset.ofList
        (({ fields := [{ id := 0, val := .text "x" }], is_sorted := false } : document).fields.map
          (fun f => (f.id, f.val))) ≠
      Multiset.ofList
        (({ fields := [{ id := 0, val := .text "y" }], is_sorted := false } : document).fields.map
          (fun f => (f.id, f.val)))) := by
  refine ⟨rfl, ?_⟩
  simp

theorem group_insert_keys (k : Nat) (f : field) (l : List (Nat × List field)) :
    ∀ x ∈ group_insert k f l, x.1 = k ∨ x.1 ∈ l.map Prod.fst := by
  induction l with
  | nil =>
    intro x hx
    simp only [group_insert, List.mem_singleton] at hx
    exact Or.inl (by rw [hx])
  | cons hd tl ih =>
    obtain ⟨k2, vs⟩ := hd
    intro x hx
    by_cases h1 : k < k2
    · rw [group_insert, if_pos h1] at hx
      rcases List.mem_cons.mp hx with h | h
      · left; rw [h]
      · right
        rcases List.mem_cons.mp h with h | h
        · rw [h]; simp
        · simp only [List.map_cons, List.mem_cons]
          exact Or.inr (List.mem_map_of_mem Prod.fst h)
    · by_cases h2 : k = k2
      · rw [group_insert, if_neg h1, if_pos h2] at hx
        rcases List.mem_cons.mp hx with h | h
        · left; rw [h]; exact h2.symm
        · simp only [List.map_cons, List.mem_cons]
          exact Or.inr (Or.inr (List.mem_map_of_mem Prod.fst h))
      · rw [group_insert, if_neg h1, if_neg h2] at hx
        rcases List.mem_cons.mp hx with h | h
        · right; rw [h]; simp
        · rcases ih x h with hh | hh
          · exact Or.inl hh
          · right
            simp only [List.map_cons, List.mem_cons]
            exact Or.inr hh

theorem group_insert_pairwise (k : Nat) (f : field) (l : List (Nat × List field))
    (h : List.Pairwise (fun a b => a.1 < b.1) l) :
    List.Pairwise (fun a b => a.1 < b.1) (group_insert k f l) := by
  induction l with
  | nil => simp [group_insert]
  | cons hd tl ih =>
    obtain ⟨k2, vs⟩ := hd
    rcases List.pairwise_cons.mp h with ⟨hhead, htail⟩
    by_cases h1 : k < k2
    · rw [group_insert, if_pos h1]
      refine List.pairwise_cons.mpr ⟨?_, h⟩
      intro y hy
      rcases List.mem_cons.mp hy with hh | hh
      · rw [hh]; exact h1
      · have := hhead y hh
        simp only at this ⊢
        omega
    · by_cases h2 : k = k2
      · rw [group_insert, if_neg h1, if_pos h2]
        refine List.pairwise_cons.mpr ⟨?_, htail⟩
        intro y hy
        exact hhead y hy
      · rw [group_insert, if_neg h1, if_neg h2]
        refine List.pairwise_cons.mpr ⟨?_, ih htail⟩
        intro y hy
        rcases group_insert_keys k f tl y hy with hk | hk
        · simp only
          omega
        · rcases List.mem_map.mp hk with ⟨z, hz, hz2⟩
          have := hhead z hz
          simp only at this ⊢
          omega

theorem group_fold_pairwise (fs : List field) (acc : List (Nat × List field))
    (h : List.Pairwise (fun a b => a.1 < b.1) acc) :
    List.Pairwise (fun a b => a.1 < b.1)
      (fs.foldl (fun a f => group_insert f.id f a) acc) := by
  induction fs generalizing acc with
  | nil => exact h
  | cons f fs ih => exact ih (group_insert f.id f acc) (group_insert_pairwise f.id f acc h)

/-- Claim C5 (amended): none of the mutating adds touches the is-sorted
hint (so a sort after sort-then-add is a no-op on the field vector), yet
every call to get_sorted_fields returns a sequence strictly increasing in
field id for every document state — the grouping goes through an ordered
map, which sorts regardless of the stale hint. -/
theorem document_get_sorted_fields_sorted :
    (∀ (d : document) (i : Nat) (s : String), (d.add_text i s).is_sorted = d.is_sorted) ∧
    (∀ (d : document) (i v : Nat), (d.add_u32 i v).is_sorted = d.is_sorted) ∧
    (∀ (d : document) (f : field), (d.add f).is_sorted = d.is_sorted) ∧
    (∀ d : document, List.Pairwise (fun a b => a.1 < b.1) d.get_sorted_fields) := by
  refine ⟨fun _ _ _ => rfl, fun _ _ _ => rfl, fun _ _ => rfl, fun d => ?_⟩
  exact group_fold_pairwise d.sort_by_id.fields [] List.Pairwise.nil

/-- The concrete sort-then-add state used to refute the hint invalidation. -/
def c5_doc : document :=
  (document.sort_by_id
    { fields := [{ id := 2, val := .text "a" }, { id := 1, val := .text "b" }],
      is_sorted := false }).add_text 0 "c"

/-- Counterexample to C5 as stated: after sorting and then adding a field,
the internal is-sorted hint is still set — add_text did not invalidate it —
and a subsequent sort_by_id therefore leaves the field vector unsorted
(ids 1, 2, 0). -/
theorem document_add_keeps_sorted_hint_cx :
    c5_doc.is_sorted = true ∧ c5_doc.sort_by_id.fields.map field.id = [1, 2, 0] := by
  exact ⟨rfl, rfl⟩

/-- Claim C6: the combine algebra of the text options: Unindexed is a
two-sided identity, combine is idempotent, (monadically) associative, it
fails exactly on two distinct non-Unindexed modes, and on text field
options it fails exactly when the indexing combine fails while the defined
results OR the stored flags. -/
theorem text_options_combine_algebra :
    (∀ x : text_indexing_option, x.combine .Unindexed = some x) ∧
    (∀ x : text_indexing_option, text_indexing_option.combine .Unindexed x = some x) ∧
    (∀ x : text_indexing_option, x.combine x = some x) ∧
    (∀ x y z : text_indexing_option,
      (x.combine y).bind (fun a => a.combine z) = (y.combine z).bind (fun c => x.combine c)) ∧
    (∀ x y : text_indexing_option,
      x.combine y = none ↔ x ≠ y ∧ x ≠ .Unindexed ∧ y ≠ .Unindexed) ∧
    (∀ a b : text_field_option, a.combine b = none ↔ a.indexing.combine b.indexing = none) ∧
    (∀ a b r : text_field_option, a.combine b = some r →
      some r.indexing = a.indexing.combine b.indexing ∧ r.stored = (a.stored || b.stored)) := by
  decide

/-- Witness for C6: the failure characterization applied at the concrete
pair Untokenized and TokenizedNoFreq. -/
theorem text_options_combine_algebra_witness :
    text_indexing_option.combine .Untokenized .TokenizedNoFreq = none :=
  (text_options_combine_algebra.2.2.2.2.1 .Untokenized .TokenizedNoFreq).mpr (by decide)

/-- Claim C7 (amended): slice(from_offset, to_offset) on either source kind
returns the to_offset bytes starting at from_offset — the second argument
is a length, not an end offset — whenever the requested range lies inside
the source; byte i of the slice is byte from_offset + i of the source. -/
theorem slice_takes_length_from_offset (data : List Nat) (f t : Nat)
    (h : f + t ≤ data.length) :
    (in_memory_source_slice data f t).length = t ∧
    mmap_source_slice data f t = in_memory_source_slice data f t ∧
    ∀ i, i < t → (in_memory_source_slice data f t)[i]? = data[f + i]? := by
  refine ⟨?_, rfl, ?_⟩
  · simp only [in_memory_source_slice, List.length_take, List.length_drop]
    omega
  · intro i hi
    simp only [in_memory_source_slice]
    rw [List.getElem?_take_of_lt hi, List.getElem?_drop]

/-- Witness for C7: the amended slice contract evaluated on a concrete
source of four bytes. -/
theorem slice_takes_length_from_offset_witness :
    (in_memory_source_slice [5, 6, 7, 8] 1 2).length = 2 ∧
    (in_memory_source_slice [5, 6, 7, 8] 1 2)[1]? = [5, 6, 7, 8][2]? :=
  ⟨(slice_takes_length_from_offset [5, 6, 7, 8] 1 2 (by decide)).1,
   (slice_takes_length_from_offset [5, 6, 7, 8] 1 2 (by decide)).2.2 1 (by decide)⟩

/-- Counterexample to C7 as stated: slicing three bytes with
from_offset = 1 and to_offset = 2 yields two bytes, not
to_offset - from_offset = 1. -/
theorem slice_length_mismatch_cx :
    ¬ ((in_memory_source_slice [10, 20, 30] 1 2).length = 2 - 1) := by
  decide

/-- Claim C8 (amended): on JSON ingest, values that are neither JSON strings
nor JSON numbers are silently dropped: the parsed value list is exactly the
string and number values, converted in order, and no error is raised for
the others. -/
theorem ingest_keeps_exactly_scalars :
    ∀ js : List json, parse_nfd_values js = js.filterMap json_scalar_value := by
  intro js
  induction js with
  | nil => rfl
  | cons j rest ih => cases j <;> simp [parse_nfd_values, json_scalar_value, ih]

/-- The concrete schema and JSON used to show a boolean value is skipped. -/
def c8_schema : Schema :=
  (SchemaBuilder.empty.add_field "k"
    (field_entry_v.text "k" { indexing := .Untokenized, stored := true })).1.build

/-- A named-field-document JSON whose only value is the boolean true. -/
def c8_json : json :=
  .obj [("named_field_document", .obj [("k", .arr [json.bool true])])]

/-- Counterexample to C8 as stated: ingesting a JSON boolean does not fail
with UnsupportedValueKind — doc_from_json succeeds and returns a document
with no fields at all, the boolean having been silently skipped. -/
theorem ingest_silently_skips_bool_cx :
    c8_schema.doc_from_json c8_json = some { fields := [], is_sorted := true } := by
  rfl

theorem field_entry_v_json_roundtrip (e : field_entry_v) :
    field_entry_v.from_json e.to_json = some e := by
  cases e with
  | text n o =>
    obtain ⟨i, st⟩ := o
    cases i <;> rfl
  | numeric n o =>
    obtain ⟨a, b, c⟩ := o
    rfl

theorem schema_from_json_loop_map (l : List field_entry_v) (b : SchemaBuilder) :
    schema_from_json_loop b (l.map field_entry_v.to_json) =
      some (l.foldl (fun b2 e => (b2.add_field e.name e).1) b) := by
  induction l generalizing b with
  | nil => rfl
  | cons e rest ih =>
    simp only [List.map_cons, schema_from_json_loop, field_entry_v_json_roundtrip]
    exact ih _

theorem build_fold_entries (l : List field_entry_v) (b : SchemaBuilder) :
    (l.foldl (fun b2 e => (b2.add_field e.name e).1) b).field_entries =
      b.field_entries ++ l := by
  induction l generalizing b with
  | nil => simp
  | cons e rest ih =>
    rw [List.foldl_cons, ih]
    simp [SchemaBuilder.add_field]

theorem schema_from_json_on_fields_obj (fjs : List json) :
    Schema.from_json (json.obj [("fields", json.arr fjs)]) =
      match schema_from_json_loop SchemaBuilder.empty fjs with
      | some b => some b.build
      | none => none := rfl

/-- Claim C3 (amended): for every schema assembled by registering each field
entry under the entry's own name — which is what add_text_field,
add_numeric_field and Schema::from_json itself do — Schema::from_json
inverts Schema::to_json exactly: same entries in order (hence the same
ids) and the same name-to-id map. -/
theorem schema_json_roundtrip_consistent (l : List field_entry_v) :
    Schema.from_json (build_consistent l).build.to_json =
      some (build_consistent l).build := by
  have hent : (build_consistent l).build.field_entries = l := by
    simpa [SchemaBuilder.build, SchemaBuilder.empty, build_consistent] using
      build_fold_entries l SchemaBuilder.empty
  have h1 : (build_consistent l).build.to_json =
      json.obj [("fields", json.arr (l.map field_entry_v.to_json))] := by
    rw [Schema.to_json, hent]
  rw [h1, schema_from_json_on_fields_obj, schema_from_json_loop_map]
  rfl

/-- The concrete schema that breaks the round trip as stated: the generic
add_field registers the entry (whose own name is "b") under the unrelated
name "a". -/
def c3_schema : Schema :=
  (SchemaBuilder.empty.add_field "a"
    (field_entry_v.text "b" { indexing := .Untokenized, stored := false })).1.build

/-- Counterexample to C3 as stated: from_json(to_json(S)) rebuilds the name
map from the entries' own names, so the schema registered under "a" comes
back keyed under "b" and differs from S in its name-to-id mapping. -/
theorem schema_json_roundtrip_name_mismatch_cx :
    Schema.from_json c3_schema.to_json ≠ some c3_schema := by
  decide

theorem lookup_cons_eq {β : Type} (k : String) (v : β) (tl : List (String × β)) :
    ((k, v) :: tl).lookup k = some v := by
  simp [List.lookup]

theorem lookup_cons_ne {β : Type} (k k2 : String) (v2 : β) (tl : List (String × β))
    (h : k ≠ k2) : ((k2, v2) :: tl).lookup k = tl.lookup k := by
  simp only [List.lookup]
  rw [beq_eq_false_iff_ne.mpr h]

theorem lookup_eq_none_of_not_mem_keys {β : Type} (l : List (String × β)) (k : String)
    (h : k ∉ l.map Prod.fst) : l.lookup k = none := by
  induction l with
  | nil => rfl
  | cons hd tl ih =>
    obtain ⟨k2, v2⟩ := hd
    simp only [List.map_cons, List.mem_cons] at h
    push_neg at h
    rw [lookup_cons_ne k k2 v2 tl h.1]
    exact ih h.2

theorem map_insert_keep_fresh (m : List (String × Nat)) (k : String) (v w : Nat)
    (h : m.lookup k = none) :
    map_insert_keep (map_insert_keep m k v) k w = map_insert_keep m k v ∧
    (map_insert_keep m k v).lookup k = some v := by
  induction m with
  | nil =>
    constructor
    · show map_insert_keep [(k, v)] k w = [(k, v)]
      rw [map_insert_keep, if_neg (lt_irrefl k), if_pos rfl]
    · exact lookup_cons_eq k v []
  | cons hd tl ih =>
    obtain ⟨k2, v2⟩ := hd
    have hne : k ≠ k2 := by
      intro hk
      subst hk
      rw [lookup_cons_eq k v2 tl] at h
      exact Option.noConfusion h
    have htl : tl.lookup k = none := by
      rw [lookup_cons_ne k k2 v2 tl hne] at h
      exact h
    by_cases h1 : k < k2
    · rw [map_insert_keep, if_pos h1]
      constructor
      · rw [map_insert_keep]
        simp
      · exact lookup_cons_eq k v _
    · by_cases h2 : k = k2
      · exact absurd h2 hne
      · rw [map_insert_keep, if_neg h1, if_neg h2]
        constructor
        · rw [map_insert_keep, if_neg h1, if_neg h2, (ih htl).1]
        · rw [lookup_cons_ne k k2 v2 _ hne]
          exact (ih htl).2

/-- Claim C10: SchemaBuilder::add_field never rejects a duplicate name:
adding two fields under the same (previously unused) name appends both
entries, hands out the consecutive ids equal to their positions, and the
name map keeps the first id, so get_field_id returns the id of the first
addition; build always succeeds (it is total). -/
theorem schema_builder_duplicate_name_first_wins (b : SchemaBuilder) (name : String)
    (e1 e2 : field_entry_v) (h : b.field_names.lookup name = none) :
    ((b.add_field name e1).1.add_field name e2).1.field_entries =
      b.field_entries ++ [e1, e2] ∧
    (b.add_field name e1).2 = b.field_entries.length ∧
    ((b.add_field name e1).1.add_field name e2).2 = b.field_entries.length + 1 ∧
    ((b.add_field name e1).1.add_field name e2).1.build.get_field_id name =
      some b.field_entries.length := by
  refine ⟨by simp [SchemaBuilder.add_field], rfl, by simp [SchemaBuilder.add_field], ?_⟩
  have hm := map_insert_keep_fresh b.field_names name b.field_entries.length
    (b.field_entries ++ [e1]).length h
  simp only [SchemaBuilder.add_field, SchemaBuilder.build, Schema.get_field_id]
  rw [hm.1]
  exact hm.2

/-- Witness for C10: two text fields both named "t" added to the empty
builder; the name resolves to the first id 0. -/
theorem schema_builder_duplicate_name_first_wins_witness :
    ((SchemaBuilder.empty.add_field "t"
        (field_entry_v.text "t" { indexing := .Untokenized, stored := false })).1.add_field "t"
        (field_entry_v.text "t" { indexing := .Unindexed, stored := true })).1.build.get_field_id
      "t" = some 0 :=
  (schema_builder_duplicate_name_first_wins SchemaBuilder.empty "t"
    (field_entry_v.text "t" { indexing := .Untokenized, stored := false })
    (field_entry_v.text "t" { indexing := .Unindexed, stored := true }) rfl).2.2.2

theorem lookup_erase_key_self (l : List (String × List Nat)) (p : String)
    (h : (l.map Prod.fst).Nodup) : (erase_key l p).lookup p = none := by
  induction l with
  | nil => rfl
  | cons hd tl ih =>
    obtain ⟨k, v⟩ := hd
    simp only [List.map_cons, List.nodup_cons] at h
    by_cases hk : k = p
    · rw [erase_key, if_pos hk]
      subst hk
      exact lookup_eq_none_of_not_mem_keys tl k h.1
    · rw [erase_key, if_neg hk]
      rw [lookup_cons_ne p k v _ (fun hh => hk hh.symm)]
      exact ih h.2

theorem lookup_erase_key_other (l : List (String × List Nat)) (p q : String)
    (h : q ≠ p) : (erase_key l p).lookup q = l.lookup q := by
  induction l with
  | nil => rfl
  | cons hd tl ih =>
    obtain ⟨k, v⟩ := hd
    by_cases hk : k = p
    · rw [erase_key, if_pos hk]
      subst hk
      rw [lookup_cons_ne q k v tl (fun hh => h (hh.trans rfl))]
    · rw [erase_key, if_neg hk]
      by_cases hq : q = k
      · subst hq
        rw [lookup_cons_eq, lookup_cons_eq]
      · rw [lookup_cons_ne q k v _ hq, lookup_cons_ne q k v _ hq]
        exact ih

/-- Claim C9: after a successful RAMDirectory::remove(p), the removed name
no longer resolves and every other name still resolves to the same bytes;
a source obtained from open_read before the removal keeps its size and
bytes because open_read constructs the in_memory_source from a copy of the
blob — in this value-level model the source is the byte list src itself,
which the removal cannot touch. -/
theorem ram_directory_remove_frame (d : RAMDirectory) (p : String) (src : List Nat)
    (d2 : RAMDirectory) (hnd : (d.ram_cache.map Prod.fst).Nodup)
    (hopen : d.open_read p = some src) (hrem : d.remove p = some d2) :
    d2.open_read p = none ∧ ∀ q, q ≠ p → d2.open_read q = d.open_read q := by
  have hlk : d.ram_cache.lookup p = some src := hopen
  have hd2 : d2 = { ram_cache := erase_key d.ram_cache p } := by
    unfold RAMDirectory.remove at hrem
    rw [hlk] at hrem
    exact (Option.some.inj hrem).symm
  subst hd2
  refine ⟨lookup_erase_key_self d.ram_cache p hnd, fun q hq => ?_⟩
  exact lookup_erase_key_other d.ram_cache p q hq

/-- Witness for C9: a two-file RAM directory; after removing "a", reading
"a" fails and "b" still reads the same bytes. -/
theorem ram_directory_remove_frame_witness :
    (RAMDirectory.mk [("b", [3])]).open_read "a" = none ∧
    (RAMDirectory.mk [("b", [3])]).open_read "b" =
      (RAMDirectory.mk [("a", [1, 2]), ("b", [3])]).open_read "b" :=
  ⟨(ram_directory_remove_frame (RAMDirectory.mk [("a", [1, 2]), ("b", [3])]) "a" [1, 2]
      (RAMDirectory.mk [("b", [3])]) (by decide) rfl rfl).1,
   (ram_directory_remove_frame (RAMDirectory.mk [("a", [1, 2]), ("b", [3])]) "a" [1, 2]
      (RAMDirectory.mk [("b", [3])]) (by decide) rfl rfl).2 "b" (by decide)⟩

/-- Claim C1 evaluated at its failing input: one document holding the single
field (id 0, u32 value 7) is stored with the identity compression strategy
and the writer is closed; store_reader::get(0) then fails (the writer never
emits the per-document offsets trailer the reader parses, and the extra
size_t the writer puts before each serialized block misaligns the block
read), instead of returning the document. -/
theorem store_roundtrip_fails_on_single_doc :
    store_reader_get c1_store_bytes 0 = none := by
  rfl

/-- Claim C2 evaluated at its failing input: the uncompressed block flushed
for the single-document store does not end in the self-describing trailer —
store_reader::read_block_offsets applied to exactly these block bytes fails
instead of recovering a doc-id-to-offset map. -/
theorem flushed_block_lacks_offsets_trailer :
    store_read_block_offsets c2_block_bytes = none := by
  rfl
